import Mathlib

/-!
Verification of the conversational memory engine of the
`test-chatbot-with-vector` repository.

The JavaScript sources are shallowly embedded: JS strings are modelled as
lists of characters (`Str`), external services (the OpenAI Generation and
Embedding Services and the Chroma Vector Backend) are modelled as oracles
returning `Except Unit` values, and each JS `try/catch` becomes an explicit
`match` on those values.  All definitions are executable so that concrete
runs can be checked by `decide`/`rfl`.
-/

namespace ChatbotVec

/-- JS strings, modelled as lists of characters.  A Lean string literal
`"ab"` is embedded as `"ab".data`. -/
abbrev Str := List Char

/-- JS `String.prototype.trim()`: removes leading and trailing whitespace.
(JS trims the Unicode whitespace class; the sources only ever meet ASCII
whitespace, which `Char.isWhitespace` covers.) -/
def strTrim (s : Str) : Str :=
  ((s.dropWhile Char.isWhitespace).reverse.dropWhile Char.isWhitespace).reverse

/-- JS `str.split(sep)` for a one-character separator (the sources split on
the single character `|`).  `"".split(c)` is `[""]`, and separators at the
ends produce empty fragments, exactly as in JS. -/
def splitOnChar (sep : Char) : Str → List Str
  | [] => [[]]
  | c :: rest =>
    let r := splitOnChar sep rest
    if c = sep then [] :: r
    else
      match r with
      | [] => [[c]]
      | h :: t => (c :: h) :: t

/-- Helper for `wsWords`: accumulates the current (reversed) run of
non-whitespace characters. -/
def wsWordsAux : Str → Str → List Str
  | [], cur => if cur = [] then [] else [cur.reverse]
  | c :: rest, cur =>
    if c.isWhitespace then
      if cur = [] then wsWordsAux rest [] else cur.reverse :: wsWordsAux rest []
    else wsWordsAux rest (c :: cur)

/-- The maximal non-whitespace runs of a string.  For a string with no
leading or trailing whitespace this is exactly JS `str.split(/\s+/)`;
the sources only apply that split to trimmed fragments (and otherwise
immediately discard empty fragments by a length filter). -/
def wsWords (s : Str) : List Str := wsWordsAux s []

/-- The word count the source computes on an already-trimmed fragment:
`chunk.split(/\s+/).length` (src/memoryProcessor.js line 87). -/
def jsWordCount (s : Str) : Nat := (wsWords s).length

/-- JS `String.prototype.toLowerCase()`; the sources only lower-case ASCII
text, which `Char.toLower` handles. -/
def strLower (s : Str) : Str := s.map Char.toLower

/-- JS `Array.prototype.join(sep)`. -/
def strJoin (sep : Str) : List Str → Str
  | [] => []
  | [x] => x
  | x :: y :: t => x ++ sep ++ strJoin sep (y :: t)

/-- Fuel-driven decimal printer, following the fuel pattern of the runtime
number-to-string conversion: with fuel at least `n + 1` it prints the
decimal digits of `n`. -/
def decDigitsCore : Nat → Nat → Str
  | 0, _ => []
  | fuel + 1, n =>
    if n < 10 then [Nat.digitChar n]
    else decDigitsCore fuel (n / 10) ++ [Nat.digitChar (n % 10)]

/-- The decimal rendering a JS template literal performs on an integer
(`${n}` for a non-negative integer `n`). -/
def decRepr (n : Nat) : Str := decDigitsCore (n + 1) n

/-- A conversation turn `{role, content}` (a JS message object). -/
structure Msg where
  role : Str
  content : Str
deriving DecidableEq, Repr

/-- Metadata attached to a memory chunk (src/memoryProcessor.js lines
94-105).  `topics = none` models the field being absent. -/
structure ChunkMeta where
  timestamp : Str
  source : Str
  chunk_length : Nat
  topics : Option Str
deriving DecidableEq, Repr

instance : Inhabited ChunkMeta := ⟨⟨[], [], 0, none⟩⟩

/-- A memory chunk `{narrative, metadata}`. -/
structure Chunk where
  narrative : Str
  metadata : ChunkMeta
deriving DecidableEq, Repr

/-- A search result `{narrative, metadata, distance}`; the backend distance
is an opaque ordering key, modelled as an integer. -/
structure SearchResult where
  narrative : Str
  metadata : ChunkMeta
  distance : Int
deriving DecidableEq, Repr

/-- A stored memory as returned by enumeration: `{id, narrative, metadata}`
(src/test.js lines 345-349). -/
structure StoredMemory where
  id : Str
  narrative : Str
  metadata : ChunkMeta
deriving DecidableEq, Repr

/-! ### Fact Extraction Pipeline: src/memoryProcessor.js -/

/-- The combined document `processConversations` builds from the summaries:
`summaries.map((s, idx) => "Summary " + (idx+1) + ":\n" + s).join("\n\n")`
(src/memoryProcessor.js line 23). -/
def combinedSummaries (summaries : List Str) : Str :=
  strJoin "\n\n".data
    ((List.range summaries.length).zip summaries |>.map
      (fun p => "Summary ".data ++ decRepr (p.1 + 1) ++ ":\n".data ++ p.2))

/-- The parsing of the Generation Service output into candidate narratives
(src/memoryProcessor.js lines 77-89): trim the reply, split on the `|`
delimiter, trim each fragment, drop empty fragments, and keep only
fragments whose word count lies in [10, 200]. -/
def parseChunkTexts (narrativeText : Str) : List Str :=
  (((splitOnChar '|' (strTrim narrativeText)).map strTrim).filter
      (fun c => decide (0 < c.length))).filter
    (fun c => decide (10 ≤ jsWordCount c ∧ jsWordCount c ≤ 200))

/-- The keyword heuristic (src/memoryProcessor.js lines 101-102):
`narrative.toLowerCase().split(/\s+/)` filtered to words longer than five
characters, first three kept.  (Empty fragments of the JS split have length
0 and are removed by the same filter.) -/
def chunkTopics (narrative : Str) : List Str :=
  ((wsWords (strLower narrative)).filter (fun w => decide (5 < w.length))).take 3

/-- Metadata construction for one surviving fragment (src/memoryProcessor.js
lines 92-111).  `now` stands for `new Date().toISOString()`. -/
def mkChunk (now : Str) (narrative : Str) : Chunk :=
  let topics := chunkTopics narrative
  { narrative := narrative
    metadata :=
      { timestamp := now
        source := "conversation_summary".data
        chunk_length := narrative.length
        topics :=
          if 0 < topics.length then some (strJoin ", ".data topics) else none } }

/-- A Generation Service call: receives the variable text of the request
(the fixed instruction strings of the source are constants and omitted) and
returns the completion text, or fails. -/
def GenOracle := Str → Except Unit Str

/-- src/memoryProcessor.js `processConversations(summaries)`.
`summaries = none` models a JS `null`/`undefined` argument (the
`!summaries` check).  The second component records whether a Generation
Service call was made.  A failing Generation Service call is re-thrown
(lines 116-119). -/
def processConversations (gen : GenOracle) (now : Str)
    (summaries : Option (List Str)) : Except Unit (List Chunk) × Bool :=
  match summaries with
  | none => (Except.ok [], false)
  | some ss =>
    if ss.length = 0 then (Except.ok [], false)
    else
      match gen (combinedSummaries ss) with
      | Except.error e => (Except.error e, true)
      | Except.ok text => (Except.ok ((parseChunkTexts text).map (mkChunk now)), true)

/-- The conversation text `summarizeConversation` builds and sends to the
Generation Service (src/memoryProcessor.js lines 130-134). -/
def conversationText (cache : List Msg) : Str :=
  (cache.foldl (fun acc m => acc ++ m.content ++ "\n".data) []) ++ "\nsummary:".data

/-! ### Conversation orchestrator: src/aiChat.js (console app half) -/

/-- The orchestrator state: the conversation cache and the rolling summary
(src/aiChat.js lines 165-166: `conversationCache`, `currentSummary`). -/
structure ChatState where
  cache : List Msg
  summary : Str
deriving DecidableEq, Repr

/-- src/aiChat.js line 167. -/
def CACHE_LIMIT : Nat := 7

/-- The initial orchestrator state: empty cache, empty summary. -/
def initState : ChatState := { cache := [], summary := [] }

/-- The context string `reformulateQuery` builds from the last four entries
of the recent context (src/aiChat.js lines 300-303): JS `slice(-4)` is
`drop (length - 4)`. -/
def recentContextStr (recent : List Msg) : Str :=
  strJoin "\n".data
    ((recent.drop (recent.length - 4)).map (fun m => m.role ++ ": ".data ++ m.content))

/-- The variable part of the reformulation prompt (src/aiChat.js lines
305-317): the recent-context block (`contextStr || "No recent context"`)
and the user input.  The fixed instruction text is constant and omitted. -/
def reformulatePrompt (input : Str) (recent : List Msg) : Str :=
  let contextStr := recentContextStr recent
  (if contextStr = [] then "No recent context".data else contextStr) ++ "\n".data ++ input

/-- src/aiChat.js `reformulateQuery(input, recentContext)` (lines 297-342):
delegates to the Generation Service; on success returns the trimmed
completion, on any failure falls back to the original input (lines
337-341). -/
def reformulateQuery (reform : GenOracle) (input : Str) (recent : List Msg) : Str :=
  match reform (reformulatePrompt input recent) with
  | Except.error _ => input
  | Except.ok q => strTrim q

/-- The external services `handleChat` consults, as oracles.  `search`
models `searchMemories`, which never throws (it swallows its own errors,
see `searchMemories` below), so it returns a plain list. -/
structure ChatOracles where
  reform : GenOracle
  search : Str → Nat → List SearchResult
  chat : List Msg → Except Unit Str
  summarize : GenOracle

/-- The messages array `handleChat` sends to the Generation Service
(src/aiChat.js lines 370-395): base system message, an optional system
message carrying the retrieved memories, the conversation cache, and the
user input. -/
def handleChatMessages (mems : List SearchResult) (cache : List Msg) (input : Str) :
    List Msg :=
  [⟨"system".data,
    "You are a helpful AI assistant. Keep your responses concise and friendly.".data⟩]
  ++ (if 0 < mems.length then
        [⟨"system".data,
          "Relevant memories from past conversations: ".data
            ++ strJoin " | ".data (mems.map (fun m => m.narrative))⟩]
      else [])
  ++ cache ++ [⟨"user".data, input⟩]

/-- src/aiChat.js `handleChat(input)` (lines 347-445).  Reformulates the
query and searches memories (neither mutates state), asks the Generation
Service for a reply, appends the user and assistant turns, and when the
cache has reached `CACHE_LIMIT` summarizes it, merges the summary into the
rolling summary, and reseeds the cache with the single context turn.  Any
thrown error is caught at lines 437-444, leaving whatever state had been
reached. -/
def handleChat (orc : ChatOracles) (input : Str) (st : ChatState) : ChatState :=
  let searchQuery := reformulateQuery orc.reform input st.cache
  let mems := orc.search searchQuery 3
  match orc.chat (handleChatMessages mems st.cache input) with
  | Except.error _ => st
  | Except.ok reply =>
    let cache1 := st.cache ++ [⟨"user".data, input⟩, ⟨"assistant".data, reply⟩]
    if CACHE_LIMIT ≤ cache1.length then
      match orc.summarize (conversationText cache1) with
      | Except.error _ => { st with cache := cache1 }
      | Except.ok newSummary =>
        let merged :=
          if st.summary = [] then newSummary
          else st.summary ++ "\n\n".data ++ newSummary
        { cache := [⟨"user".data, "Previous conversation context: ".data ++ merged⟩]
          summary := merged }
    else { st with cache := cache1 }

/-- A sequence of chat turns: each step supplies the oracle outcomes for
that call of `handleChat`. -/
def runChats (steps : List (ChatOracles × Str)) (st : ChatState) : ChatState :=
  steps.foldl (fun s p => handleChat p.1 p.2 s) st

/-- The external calls `processSummaries` makes, as oracles: residual
summarization (`summarizeConversation`), extraction
(`processConversations`), and the store insert (`storeMemories`, which
re-throws backend failures). -/
structure ProcOracles where
  summarize : GenOracle
  gen : GenOracle
  store : List Chunk → Except Unit Unit

/-- src/aiChat.js `processSummaries()` (lines 244-292).  Builds the
contexts to process (the rolling summary, plus a fresh summary of the
residual cache when it holds more than one message), extracts chunks, and
on a non-empty chunk set stores them and then clears summary and cache.
Any thrown error is caught at lines 289-291 with the state untouched. -/
def processSummaries (orc : ProcOracles) (now : Str) (st : ChatState) : ChatState :=
  if st.summary = [] ∧ st.cache.length = 0 then st
  else
    let contexts1 : List Str := if st.summary = [] then [] else [st.summary]
    match
      (if 1 < st.cache.length then
        (orc.summarize (conversationText st.cache)).map (fun r => contexts1 ++ [r])
      else Except.ok contexts1) with
    | Except.error _ => st
    | Except.ok contexts =>
      if contexts.length = 0 then st
      else
        match (processConversations orc.gen now (some contexts)).1 with
        | Except.error _ => st
        | Except.ok chunks =>
          if 0 < chunks.length then
            match orc.store chunks with
            | Except.error _ => st
            | Except.ok _ => { cache := [], summary := [] }
          else st

/-! ### Vector Memory Store: vectorDB.js (second half of src/test.js)

Two readings of the same source are embedded.  The pure reading threads the
backend collection state through the operations and gives every external
call its successful outcome; it backs the claims about successful calls
(idempotent clear, id generation).  The oracle reading leaves the
collection behind `Except`-valued oracles so that every failure point of
the source is a case; it backs the error-handling claims. -/

/-- One record of the Chroma collection: what `collection.add` receives per
item (src/test.js lines 307-317). -/
structure Record where
  id : Str
  embedding : List Int
  document : Str
  metadata : ChunkMeta
deriving DecidableEq, Repr

/-- The backend collection state: its records in insertion order. -/
abbrev Store := List Record

/-- The id generated for the chunk at index `idx` of a batch inserted at
time `now`: the JS template string `chunk_` + `Date.now()` + `_` + `idx`
(src/test.js line 307). -/
def mkChunkId (now idx : Nat) : Str :=
  "chunk_".data ++ decRepr now ++ "_".data ++ decRepr idx

/-- The ids `storeMemories` generates for a batch of `n` chunks:
`chunks.map((_, idx) => ...)` (src/test.js line 307); the chunk value is
unused, only the index matters. -/
def chunkIds (now n : Nat) : List Str :=
  (List.range n).map (mkChunkId now)

/-- src/test.js `storeMemories(chunks)` (lines 288-324), successful-call
reading over an explicit collection state; `embed` is the Embedding
Service and `now` the `Date.now()` timestamp of the call.  Empty batches
return without touching the collection (lines 292-295); otherwise one
record per chunk is added. -/
def storeMemoriesPure (embed : Str → List Int) (now : Nat) (chunks : List Chunk)
    (st : Store) : Store :=
  if chunks.length = 0 then st
  else
    st ++ ((List.range chunks.length).zip chunks).map
      (fun p => ⟨mkChunkId now p.1, embed p.2.narrative, p.2.narrative, p.2.metadata⟩)

/-- src/test.js `getAllMemories()` (lines 330-357), successful-call
reading: count, early return on an empty collection, then map the records
to `{id, narrative, metadata}`. -/
def getAllMemoriesPure (st : Store) : List StoredMemory :=
  if st.length = 0 then []
  else st.map (fun r => ⟨r.id, r.document, r.metadata⟩)

/-- src/test.js `clearAllMemories()` (lines 363-392), successful-call
reading: count, early return 0 on an empty collection, fetch all ids,
delete them (`collection.delete({ids})` removes the records carrying those
ids), and return the count. -/
def clearAllMemoriesPure (st : Store) : Nat × Store :=
  if st.length = 0 then (0, st)
  else if 0 < (st.map (fun r => r.id)).length then
    (st.length, st.filter (fun r => decide (r.id ∉ st.map (fun r => r.id))))
  else (0, st)

/-- The reply of `collection.query` (src/test.js lines 262-265): per-query
lists of documents, metadatas and distances. -/
structure QueryReply where
  documents : List (List Str)
  metadatas : List (List ChunkMeta)
  distances : List (List Int)
deriving Repr

/-- The reply of `collection.get` (src/test.js lines 340-342, 375). -/
structure GetReply where
  ids : List Str
  documents : List Str
  metadatas : List ChunkMeta
deriving Repr

/-- The external calls of vectorDB.js as oracles: `initializeChroma`, the
Embedding Service, and the backend collection operations. -/
structure DBOracles where
  init : Except Unit Unit
  embed : Str → Except Unit (List Int)
  query : List Int → Nat → Except Unit QueryReply
  count : Except Unit Nat
  get : Except Unit GetReply
  add : List Str → List (List Int) → List Str → List ChunkMeta → Except Unit Unit
  delete : List Str → Except Unit Unit

/-- src/test.js `searchMemories(query, limit)` (lines 254-281): initialize,
embed the query, run the backend query, format `documents[0]` with its
metadatas and distances.  Every failure is caught at lines 277-280 and
turned into the empty list. -/
def searchMemories (orc : DBOracles) (query : Str) (limit : Nat) : List SearchResult :=
  match orc.init with
  | Except.error _ => []
  | Except.ok _ =>
    match orc.embed query with
    | Except.error _ => []
    | Except.ok qe =>
      match orc.query qe limit with
      | Except.error _ => []
      | Except.ok results =>
        match results.documents.head? with
        | none => []
        | some docs0 =>
          if 0 < docs0.length then
            ((List.range docs0.length).zip docs0).map
              (fun p =>
                ⟨p.2, ((results.metadatas.headD []).getD p.1 default),
                  ((results.distances.headD []).getD p.1 0)⟩)
          else []

/-- Sequential embedding of a batch (src/test.js lines 300-304); the first
Embedding Service failure aborts the loop and is re-thrown. -/
def embedAll (embed : Str → Except Unit (List Int)) : List Chunk →
    Except Unit (List (List Int))
  | [] => Except.ok []
  | c :: cs =>
    match embed c.narrative with
    | Except.error e => Except.error e
    | Except.ok v =>
      match embedAll embed cs with
      | Except.error e => Except.error e
      | Except.ok vs => Except.ok (v :: vs)

/-- src/test.js `storeMemories(chunks)` (lines 288-324), oracle reading:
any failure of initialization, embedding, or the backend add is re-thrown
(lines 320-323), so the call returns an error. -/
def storeMemoriesF (orc : DBOracles) (now : Nat) (chunks : List Chunk) :
    Except Unit Unit :=
  match orc.init with
  | Except.error e => Except.error e
  | Except.ok _ =>
    if chunks.length = 0 then Except.ok ()
    else
      match embedAll orc.embed chunks with
      | Except.error e => Except.error e
      | Except.ok embeddings =>
        orc.add (chunkIds now chunks.length) embeddings
          (chunks.map (fun c => c.narrative)) (chunks.map (fun c => c.metadata))

/-- src/test.js `getAllMemories()` (lines 330-357), oracle reading: every
failure is caught at lines 353-356 and turned into the empty list. -/
def getAllMemoriesF (orc : DBOracles) : List StoredMemory :=
  match orc.init with
  | Except.error _ => []
  | Except.ok _ =>
    match orc.count with
    | Except.error _ => []
    | Except.ok count =>
      if count = 0 then []
      else
        match orc.get with
        | Except.error _ => []
        | Except.ok results =>
          if 0 < results.documents.length then
            ((List.range results.documents.length).zip results.documents).map
              (fun p =>
                ⟨results.ids.getD p.1 [], p.2, results.metadatas.getD p.1 default⟩)
          else []

/-- src/test.js `clearAllMemories()` (lines 363-392), oracle reading: any
failure is re-thrown (lines 388-391), so the call returns an error. -/
def clearAllMemoriesF (orc : DBOracles) : Except Unit Nat :=
  match orc.init with
  | Except.error e => Except.error e
  | Except.ok _ =>
    match orc.count with
    | Except.error e => Except.error e
    | Except.ok count =>
      if count = 0 then Except.ok 0
      else
        match orc.get with
        | Except.error e => Except.error e
        | Except.ok results =>
          if 0 < results.ids.length then
            match orc.delete results.ids with
            | Except.error e => Except.error e
            | Except.ok _ => Except.ok count
          else Except.ok 0

/-! ### Spec-side definition for the topics heuristic

The spec describes the topics field as built from the first three
*distinct* qualifying words; the code (`chunkTopics`) takes the first three
qualifying words without removing duplicates.  The following definitions
render the spec wording, for comparison only. -/

/-- Keeps the first occurrence of each element, dropping later
duplicates. -/
def firstDistinct : List Str → List Str
  | [] => []
  | w :: ws => w :: (firstDistinct ws).filter (fun v => decide (v ≠ w))

/-- Modelled from the spec: "the first three distinct words longer than
five characters, lower-cased" — the spec reading of the topics
heuristic. -/
def specDistinctTopics (narrative : Str) : List Str :=
  (firstDistinct
    ((wsWords (strLower narrative)).filter (fun w => decide (5 < w.length)))).take 3

/-! ### Proof-side helpers and concrete inputs -/

/-- Decimal parsing; proof-side left inverse of `decRepr`. -/
def decEval (s : Str) : Nat := s.foldl (fun a c => 10 * a + (c.toNat - 48)) 0

/-- The summarization oracle of a chat step always succeeds. -/
def GoodSumm (orc : ChatOracles) : Prop :=
  ∀ s, ∃ r, orc.summarize s = Except.ok r

/-- A Generation Service oracle that always fails. -/
def genFail : GenOracle := fun _ => Except.error ()

/-- A Generation Service oracle that always returns the text `t`. -/
def genConst (t : Str) : GenOracle := fun _ => Except.ok t

/-- Chat oracles whose calls all succeed. -/
def okOracles : ChatOracles :=
  { reform := genConst "query".data
    search := fun _ _ => []
    chat := fun _ => Except.ok "reply".data
    summarize := genConst "sum".data }

/-- Chat oracles whose summarization call fails. -/
def badSummOracles : ChatOracles :=
  { okOracles with summarize := genFail }

/-- A five-turn conversation state (one short of triggering rotation on
the next appended pair of turns). -/
def st5 : ChatState :=
  { cache := List.replicate 5 ⟨"user".data, "m".data⟩, summary := [] }

/-- A Generation Service reply holding one ten-word fragment and one
too-short fragment. -/
def genTen : GenOracle :=
  genConst "one two three four five six seven eight nine ten | short".data

/-- The chunk `processConversations` builds from the surviving fragment of
`genTen`. -/
def tenChunk : Chunk :=
  mkChunk "t".data "one two three four five six seven eight nine ten".data

/-- A Generation Service reply whose single fragment repeats a qualifying
topic word. -/
def genDupTopics : GenOracle :=
  genConst "Abcdef abcdef tiny tiny tiny tiny tiny tiny tiny tiny".data

/-- The chunk `processConversations` builds from the `genDupTopics`
fragment. -/
def dupChunk : Chunk :=
  mkChunk "t".data "Abcdef abcdef tiny tiny tiny tiny tiny tiny tiny tiny".data

/-- Vector store oracles in which every external call fails. -/
def dbAllFail : DBOracles :=
  { init := Except.error ()
    embed := fun _ => Except.error ()
    query := fun _ _ => Except.error ()
    count := Except.error ()
    get := Except.error ()
    add := fun _ _ _ _ => Except.error ()
    delete := fun _ => Except.error () }

/-- Vector store oracles whose initialization succeeds but whose Embedding
Service fails. -/
def dbEmbedFailOrc : DBOracles :=
  { dbAllFail with init := Except.ok () }

/-- A one-chunk batch used to exhibit id reuse. -/
def cChunk : Chunk := ⟨"hello".data, default⟩

/-- Two `storeMemories` batches inserted with the same `Date.now()`
value. -/
def dupStore : Store :=
  storeMemoriesPure (fun _ => []) 5 [cChunk]
    (storeMemoriesPure (fun _ => []) 5 [cChunk] [])

/-! ## Lemmas -/

theorem digitChar_toNat_sub : ∀ k, k < 10 → (Nat.digitChar k).toNat - 48 = k := by
  decide

theorem digitChar_ne_underscore : ∀ k, k < 10 → Nat.digitChar k ≠ '_' := by
  decide

theorem decEval_append_digit (xs : Str) (c : Char) :
    decEval (xs ++ [c]) = 10 * decEval xs + (c.toNat - 48) := by
  simp [decEval, List.foldl_append]

theorem decEval_decDigitsCore : ∀ f n, n < f → decEval (decDigitsCore f n) = n := by
  intro f
  induction f with
  | zero => intro n h; exact absurd h (Nat.not_lt_zero n)
  | succ g ih =>
    intro n h
    by_cases h10 : n < 10
    · simp only [decDigitsCore, if_pos h10]
      simpa [decEval] using digitChar_toNat_sub n h10
    · simp only [decDigitsCore, if_neg h10]
      rw [decEval_append_digit,
        ih (n / 10)
          (Nat.lt_of_lt_of_le (Nat.div_lt_self (by omega) (by omega)) (by omega)),
        digitChar_toNat_sub (n % 10) (Nat.mod_lt n (by omega))]
      omega

theorem decRepr_inj : Function.Injective decRepr := by
  intro m n h
  have hm := decEval_decDigitsCore (m + 1) m (Nat.lt_succ_self m)
  have hn := decEval_decDigitsCore (n + 1) n (Nat.lt_succ_self n)
  unfold decRepr at h
  rw [← hm, ← hn, h]

theorem decDigitsCore_ne_underscore : ∀ f n c, c ∈ decDigitsCore f n → c ≠ '_' := by
  intro f
  induction f with
  | zero => intro n c hc; simp [decDigitsCore] at hc
  | succ g ih =>
    intro n c hc
    by_cases h10 : n < 10
    · simp only [decDigitsCore, if_pos h10, List.mem_singleton] at hc
      subst hc
      exact digitChar_ne_underscore n h10
    · simp only [decDigitsCore, if_neg h10, List.mem_append, List.mem_singleton] at hc
      rcases hc with hc | hc
      · exact ih _ c hc
      · subst hc
        exact digitChar_ne_underscore (n % 10) (Nat.mod_lt n (by omega))

theorem decRepr_ne_underscore (n : Nat) : '_' ∉ decRepr n := fun h =>
  decDigitsCore_ne_underscore _ _ _ h rfl

theorem append_underscore_inj :
    ∀ (a1 a2 b1 b2 : Str), '_' ∉ a1 → '_' ∉ a2 →
      a1 ++ '_' :: b1 = a2 ++ '_' :: b2 → a1 = a2 ∧ b1 = b2 := by
  intro a1
  induction a1 with
  | nil =>
    intro a2 b1 b2 h1 h2 he
    cases a2 with
    | nil =>
      simp only [List.nil_append, List.cons.injEq] at he
      exact ⟨rfl, he.2⟩
    | cons c t =>
      simp only [List.nil_append, List.cons_append, List.cons.injEq] at he
      exact absurd (he.1 ▸ List.mem_cons_self c t) h2
  | cons c1 t1 ih =>
    intro a2 b1 b2 h1 h2 he
    cases a2 with
    | nil =>
      simp only [List.cons_append, List.nil_append, List.cons.injEq] at he
      exact absurd (he.1 ▸ List.mem_cons_self c1 t1) h1
    | cons c2 t2 =>
      simp only [List.cons_append, List.cons.injEq] at he
      obtain ⟨hc, ht⟩ := he
      have hrec := ih t2 b1 b2 (fun hm => h1 (List.mem_cons_of_mem _ hm))
        (fun hm => h2 (List.mem_cons_of_mem _ hm)) ht
      exact ⟨by rw [hc, hrec.1], hrec.2⟩

theorem mkChunkId_inj (n1 i1 n2 i2 : Nat) :
    mkChunkId n1 i1 = mkChunkId n2 i2 → n1 = n2 ∧ i1 = i2 := by
  intro h
  unfold mkChunkId at h
  rw [show ("_".data : Str) = ['_'] from rfl] at h
  simp only [List.append_assoc, List.singleton_append] at h
  have h1 := List.append_cancel_left h
  have h2 := append_underscore_inj (decRepr n1) (decRepr n2) (decRepr i1) (decRepr i2)
    (decRepr_ne_underscore n1) (decRepr_ne_underscore n2) h1
  exact ⟨decRepr_inj h2.1, decRepr_inj h2.2⟩

theorem chunkIds_nodup (now n : Nat) : (chunkIds now n).Nodup := by
  unfold chunkIds
  exact List.Nodup.map (fun i j hij => (mkChunkId_inj now i now j hij).2)
    (List.nodup_range n)

theorem clear_store_empty (st : Store) : (clearAllMemoriesPure st).2 = [] := by
  unfold clearAllMemoriesPure
  by_cases h : st.length = 0
  · rw [if_pos h]
    exact List.eq_nil_of_length_eq_zero h
  · have hlen : 0 < (st.map (fun r => r.id)).length := by
      simpa [List.length_map] using Nat.pos_of_ne_zero h
    rw [if_neg h, if_pos hlen]
    refine List.filter_eq_nil_iff.mpr (fun r hr => ?_)
    simp only [decide_eq_true_eq, Decidable.not_not]
    exact List.mem_map.mpr ⟨r, hr, rfl⟩

theorem handleChat_cache_bound (orc : ChatOracles) (input : Str) (st : ChatState)
    (hg : GoodSumm orc) (h : st.cache.length ≤ 6) :
    (handleChat orc input st).cache.length ≤ 6 := by
  simp only [handleChat]
  split
  · exact h
  · split
    · split
      · next e heq =>
        obtain ⟨r, hr⟩ := hg (conversationText
          (st.cache ++ [⟨"user".data, _⟩, ⟨"assistant".data, _⟩]))
        rw [hr] at heq
        exact Except.noConfusion heq
      · simp
    · next hlim =>
      simp only [List.length_append] at hlim ⊢
      simp only [CACHE_LIMIT] at hlim
      omega

theorem runChats_cache_bound :
    ∀ (steps : List (ChatOracles × Str)) (st : ChatState),
      (∀ p ∈ steps, GoodSumm p.1) → st.cache.length ≤ 6 →
      (runChats steps st).cache.length ≤ 6 := by
  intro steps
  induction steps with
  | nil => intro st _ h; simpa [runChats] using h
  | cons p t ih =>
    intro st hg h
    simp only [runChats, List.foldl_cons] at ih ⊢
    exact ih _ (fun q hq => hg q (List.mem_cons_of_mem _ hq))
      (handleChat_cache_bound p.1 p.2 st (hg p (List.mem_cons_self p t)) h)

/-- C1 (amended): provided every summarization call made during rotation
succeeds, the conversation buffer observed between `handleChat` calls
holds at most `CACHE_LIMIT` turns, and whenever appending the two turns of
a successful chat makes the buffer reach or exceed the limit, the rotation
completes within the call, leaving exactly one seeded turn
`{role: user, content: "Previous conversation context: " + merged}` whose
merged summary is at least as long as the previous rolling summary. -/
theorem handleChat_buffer_invariant :
    (∀ steps : List (ChatOracles × Str), (∀ p ∈ steps, GoodSumm p.1) →
      (runChats steps initState).cache.length ≤ CACHE_LIMIT)
    ∧ (∀ (orc : ChatOracles) (input : Str) (st : ChatState) (reply : Str),
        GoodSumm orc →
        orc.chat (handleChatMessages
          (orc.search (reformulateQuery orc.reform input st.cache) 3)
          st.cache input) = Except.ok reply →
        CACHE_LIMIT ≤ st.cache.length + 2 →
        ∃ merged,
          (handleChat orc input st).cache
            = [⟨"user".data, "Previous conversation context: ".data ++ merged⟩]
          ∧ (handleChat orc input st).summary = merged
          ∧ st.summary.length ≤ merged.length) := by
  constructor
  · intro steps hg
    have := runChats_cache_bound steps initState hg (by simp [initState])
    simp only [CACHE_LIMIT]
    omega
  · intro orc input st reply hg hchat hlim
    obtain ⟨r, hr⟩ := hg (conversationText
      (st.cache ++ [⟨"user".data, input⟩, ⟨"assistant".data, reply⟩]))
    refine ⟨if st.summary = [] then r else st.summary ++ "\n\n".data ++ r, ?_, ?_, ?_⟩
    · simp only [handleChat, hchat]
      rw [if_pos (by simpa [List.length_append] using hlim), hr]
    · simp only [handleChat, hchat]
      rw [if_pos (by simpa [List.length_append] using hlim), hr]
    · by_cases hs : st.summary = []
      · simp [hs]
      · simp [hs, List.length_append]

/-- C1 witness: the amended invariant applied to a concrete one-step run
and to a concrete rotation from a five-turn state. -/
theorem handleChat_buffer_invariant_witness :
    (runChats [(okOracles, "a".data)] initState).cache.length ≤ CACHE_LIMIT
    ∧ ∃ merged,
        (handleChat okOracles "x".data st5).cache
          = [⟨"user".data, "Previous conversation context: ".data ++ merged⟩]
        ∧ (handleChat okOracles "x".data st5).summary = merged
        ∧ st5.summary.length ≤ merged.length := by
  constructor
  · refine handleChat_buffer_invariant.1 [(okOracles, "a".data)] ?_
    intro p hp
    rw [List.mem_singleton] at hp
    subst hp
    exact fun s => ⟨"sum".data, rfl⟩
  · exact handleChat_buffer_invariant.2 okOracles "x".data st5 "reply".data
      (fun s => ⟨"sum".data, rfl⟩) rfl (by decide)

/-- C1 counterexample: starting from the initial state, three successful
chat turns followed by one whose summarization call fails leave the
conversation buffer holding 8 turns, exceeding `CACHE_LIMIT`: the claimed
unconditional bound is false on the code. -/
theorem handleChat_buffer_counterexample :
    ¬ ((runChats [(okOracles, "a".data), (okOracles, "b".data), (okOracles, "c".data),
        (badSummOracles, "d".data)] initState).cache.length ≤ CACHE_LIMIT) := by
  decide

/-- C2: every chunk returned by `processConversations` has a narrative
whose whitespace-separated word count lies in [10, 200]; fragments that
are empty after trimming or outside that range never appear in the
output. -/
theorem processConversations_word_bounds :
    ∀ (gen : GenOracle) (now : Str) (summaries : Option (List Str))
      (chunks : List Chunk) (c : Chunk),
      (processConversations gen now summaries).1 = Except.ok chunks →
      c ∈ chunks →
      10 ≤ jsWordCount c.narrative ∧ jsWordCount c.narrative ≤ 200
        ∧ c.narrative ≠ [] := by
  intro gen now summaries chunks c hok hmem
  cases summaries with
  | none =>
    simp [processConversations] at hok
    subst hok
    exact absurd hmem (List.not_mem_nil c)
  | some ss =>
    by_cases hss : ss.length = 0
    · simp [processConversations, hss] at hok
      subst hok
      exact absurd hmem (List.not_mem_nil c)
    · cases hgen : gen (combinedSummaries ss) with
      | error e => simp [processConversations, hss, hgen] at hok
      | ok text =>
        simp [processConversations, hss, hgen] at hok
        subst hok
        obtain ⟨nar, hnar, rfl⟩ := List.mem_map.mp hmem
        unfold parseChunkTexts at hnar
        have h2 := List.mem_filter.mp hnar
        have h1 := List.mem_filter.mp h2.1
        have hwc := of_decide_eq_true h2.2
        have hpos := of_decide_eq_true h1.2
        exact ⟨hwc.1, hwc.2, by simpa [mkChunk] using List.length_pos.mp hpos⟩

/-- C2 witness: a concrete Generation Service reply with one ten-word
fragment and one one-word fragment yields exactly the ten-word chunk. -/
theorem processConversations_word_bounds_witness :
    (processConversations genTen "t".data (some ["s".data])).1 = Except.ok [tenChunk]
    ∧ tenChunk ∈ [tenChunk]
    ∧ (10 ≤ jsWordCount tenChunk.narrative ∧ jsWordCount tenChunk.narrative ≤ 200
        ∧ tenChunk.narrative ≠ []) :=
  ⟨rfl, List.mem_singleton.mpr rfl,
    processConversations_word_bounds genTen "t".data (some ["s".data]) [tenChunk]
      tenChunk rfl (List.mem_singleton.mpr rfl)⟩

/-- C8 (amended): every surviving fragment carries metadata with the
creation timestamp, the constant source tag, `chunk_length` equal to the
narrative length, and, when any word qualifies, a topics field equal to
the first three words longer than five characters (duplicates included),
lower-cased and comma-joined. -/
theorem processConversations_metadata :
    ∀ (gen : GenOracle) (now : Str) (summaries : Option (List Str))
      (chunks : List Chunk) (c : Chunk),
      (processConversations gen now summaries).1 = Except.ok chunks →
      c ∈ chunks →
      c.metadata.timestamp = now
      ∧ c.metadata.source = "conversation_summary".data
      ∧ c.metadata.chunk_length = c.narrative.length
      ∧ c.metadata.topics
          = (if 0 < (chunkTopics c.narrative).length
             then some (strJoin ", ".data (chunkTopics c.narrative)) else none) := by
  intro gen now summaries chunks c hok hmem
  cases summaries with
  | none =>
    simp [processConversations] at hok
    subst hok
    exact absurd hmem (List.not_mem_nil c)
  | some ss =>
    by_cases hss : ss.length = 0
    · simp [processConversations, hss] at hok
      subst hok
      exact absurd hmem (List.not_mem_nil c)
    · cases hgen : gen (combinedSummaries ss) with
      | error e => simp [processConversations, hss, hgen] at hok
      | ok text =>
        simp [processConversations, hss, hgen] at hok
        subst hok
        obtain ⟨nar, hnar, rfl⟩ := List.mem_map.mp hmem
        exact ⟨rfl, rfl, rfl, rfl⟩

/-- C8 witness: the metadata contract applied to the concrete ten-word
chunk (whose narrative has no word longer than five characters, so no
topics field is attached). -/
theorem processConversations_metadata_witness :
    (processConversations genTen "t".data (some ["s".data])).1 = Except.ok [tenChunk]
    ∧ tenChunk ∈ [tenChunk]
    ∧ (tenChunk.metadata.timestamp = "t".data
        ∧ tenChunk.metadata.source = "conversation_summary".data
        ∧ tenChunk.metadata.chunk_length = tenChunk.narrative.length
        ∧ tenChunk.metadata.topics
            = (if 0 < (chunkTopics tenChunk.narrative).length
               then some (strJoin ", ".data (chunkTopics tenChunk.narrative)) else none)) :=
  ⟨rfl, List.mem_singleton.mpr rfl,
    processConversations_metadata genTen "t".data (some ["s".data]) [tenChunk]
      tenChunk rfl (List.mem_singleton.mpr rfl)⟩

/-- C8 counterexample: the code keeps duplicate topic words, so the topics
field is not the comma-join of the first three *distinct* qualifying
words: on a fragment whose first qualifying word repeats, the code
produces "abcdef, abcdef" while the spec wording demands "abcdef". -/
theorem processConversations_metadata_counterexample :
    (processConversations genDupTopics "t".data (some ["s".data])).1
      = Except.ok [dupChunk]
    ∧ dupChunk.metadata.topics = some "abcdef, abcdef".data
    ∧ strJoin ", ".data (specDistinctTopics dupChunk.narrative) = "abcdef".data
    ∧ dupChunk.metadata.topics
        ≠ some (strJoin ", ".data (specDistinctTopics dupChunk.narrative)) := by
  refine ⟨rfl, rfl, rfl, ?_⟩
  decide

/-- C9: `processConversations` applied to an empty or missing summaries
list returns the empty chunk list as a success, and makes no Generation
Service call (the second component records whether one was made). -/
theorem processConversations_empty_noop :
    ∀ (gen : GenOracle) (now : Str),
      processConversations gen now (some []) = (Except.ok [], false)
      ∧ processConversations gen now none = (Except.ok [], false) := by
  intro gen now
  exact ⟨rfl, rfl⟩

/-- C6: when the Generation Service call fails, `reformulateQuery` returns
the original input unchanged. -/
theorem reformulateQuery_fallback :
    ∀ (reform : GenOracle) (input : Str) (recent : List Msg),
      reform (reformulatePrompt input recent) = Except.error () →
      reformulateQuery reform input recent = input := by
  intro reform input recent h
  simp only [reformulateQuery, h]

/-- C6 witness: a Generation Service forced to fail leaves the concrete
input unchanged. -/
theorem reformulateQuery_fallback_witness :
    genFail (reformulatePrompt "hello".data []) = Except.error ()
    ∧ reformulateQuery genFail "hello".data [] = "hello".data :=
  ⟨rfl, reformulateQuery_fallback genFail "hello".data [] rfl⟩

/-- C3: `processSummaries` either leaves the rolling summary and the
conversation cache exactly as they were (in particular whenever the
extraction call or the store insert fails), or the extraction succeeded
with a non-empty chunk set, the store insert succeeded on it, and only
then are summary and cache cleared. -/
theorem processSummaries_clear_policy :
    ∀ (orc : ProcOracles) (now : Str) (st : ChatState),
      processSummaries orc now st = st
      ∨ (∃ contexts chunks,
          (processConversations orc.gen now (some contexts)).1 = Except.ok chunks
          ∧ 0 < chunks.length ∧ orc.store chunks = Except.ok ()
          ∧ processSummaries orc now st = { cache := [], summary := [] }) := by
  intro orc now st
  simp only [processSummaries]
  split
  · exact Or.inl rfl
  · split
    · exact Or.inl rfl
    · next contexts heq =>
      split
      · exact Or.inl rfl
      · split
        · exact Or.inl rfl
        · next chunks heq2 =>
          split
          · next hpos =>
            split
            · exact Or.inl rfl
            · next u heq3 =>
              exact Or.inr ⟨contexts, chunks, heq2, hpos, heq3, rfl⟩
          · exact Or.inl rfl

/-- C4: when initialization, the embedding call or the backend query
fails, `searchMemories` returns the empty sequence instead of propagating
the error. -/
theorem searchMemories_degrades :
    ∀ (orc : DBOracles) (query : Str) (limit : Nat),
      (orc.init = Except.error ()
        ∨ orc.embed query = Except.error ()
        ∨ ∃ qe, orc.embed query = Except.ok qe ∧ orc.query qe limit = Except.error ()) →
      searchMemories orc query limit = [] := by
  intro orc query limit h
  unfold searchMemories
  cases hinit : orc.init with
  | error e => rfl
  | ok u =>
    rcases h with h | h | ⟨qe, hqe, hq⟩
    · rw [hinit] at h
      exact Except.noConfusion h
    · simp [h]
    · simp [hqe, hq]

/-- C4 witness: a failing Embedding Service makes a concrete search return
the empty list. -/
theorem searchMemories_degrades_witness :
    dbEmbedFailOrc.embed "q".data = Except.error ()
    ∧ searchMemories dbEmbedFailOrc "q".data 3 = [] :=
  ⟨rfl, searchMemories_degrades dbEmbedFailOrc "q".data 3 (Or.inr (Or.inl rfl))⟩

/-- C5: `clearAllMemories` is idempotent: the first successful call
returns the number of stored memories (0 on an empty store), an
immediately following call returns 0, and enumeration afterwards returns
the empty list. -/
theorem clearAllMemories_idempotent :
    ∀ st : Store,
      (clearAllMemoriesPure st).1 = st.length
      ∧ (clearAllMemoriesPure (clearAllMemoriesPure st).2).1 = 0
      ∧ getAllMemoriesPure (clearAllMemoriesPure (clearAllMemoriesPure st).2).2 = [] := by
  intro st
  have h2 := clear_store_empty st
  refine ⟨?_, ?_, ?_⟩
  · unfold clearAllMemoriesPure
    by_cases h : st.length = 0
    · rw [if_pos h, h]
    · have hlen : 0 < (st.map (fun r => r.id)).length := by
        simpa [List.length_map] using Nat.pos_of_ne_zero h
      rw [if_neg h, if_pos hlen]
  · rw [h2]
    rfl
  · rw [h2]
    rfl

/-- C7 (amended): chunk identifiers are pairwise distinct within a batch
(the index suffix), and two batches reuse no identifier provided their
`Date.now()` timestamps differ. -/
theorem chunkIds_unique :
    (∀ now n, (chunkIds now n).Nodup)
    ∧ (∀ now1 i1 now2 i2 : Nat, now1 ≠ now2 → mkChunkId now1 i1 ≠ mkChunkId now2 i2) := by
  constructor
  · exact chunkIds_nodup
  · intro now1 i1 now2 i2 hne he
    exact hne (mkChunkId_inj now1 i1 now2 i2 he).1

/-- C7 witness: a concrete two-chunk batch has distinct ids, and batches
at distinct timestamps share no id. -/
theorem chunkIds_unique_witness :
    (chunkIds 5 2).Nodup ∧ mkChunkId 5 0 ≠ mkChunkId 6 0 :=
  ⟨chunkIds_unique.1 5 2, chunkIds_unique.2 5 0 6 0 (by decide)⟩

/-- C7 counterexample: two insert calls that observe the same `Date.now()`
value generate the same identifier `chunk_5_0`, so identifiers are reused
across batches: the claim that no two inserts ever write the same
identifier is false on the code. -/
theorem chunkIds_reuse_counterexample :
    dupStore.map (fun r => r.id) = ["chunk_5_0".data, "chunk_5_0".data]
    ∧ ¬ (dupStore.map (fun r => r.id)).Nodup := by
  refine ⟨rfl, ?_⟩
  decide

/-- C10: on any backend or initialization failure, `getAllMemories`
returns the empty list rather than propagating, so a caller cannot tell a
failed enumeration from an empty store — unlike `storeMemories` and
`clearAllMemories`, which propagate the failure. -/
theorem getAllMemories_swallows_failures :
    ∀ (orc : DBOracles) (now : Nat) (chunks : List Chunk),
      ((orc.init = Except.error () ∨ orc.count = Except.error ()
          ∨ orc.get = Except.error ()) →
        getAllMemoriesF orc = [])
      ∧ (orc.init = Except.error () →
          storeMemoriesF orc now chunks = Except.error ()
          ∧ clearAllMemoriesF orc = Except.error ()) := by
  intro orc now chunks
  constructor
  · intro h
    unfold getAllMemoriesF
    cases hinit : orc.init with
    | error e => rfl
    | ok u =>
      cases hcount : orc.count with
      | error e => rfl
      | ok n =>
        rcases h with h | h | h
        · rw [hinit] at h
          exact Except.noConfusion h
        · rw [hcount] at h
          exact Except.noConfusion h
        · by_cases hn : n = 0
          · simp [hn]
          · simp [hn, h]
  · intro h
    constructor
    · unfold storeMemoriesF
      rw [h]
    · unfold clearAllMemoriesF
      rw [h]

/-- C10 witness: with every backend call failing, enumeration returns the
empty list while insert and clear surface the error. -/
theorem getAllMemories_swallows_failures_witness :
    dbAllFail.init = Except.error ()
    ∧ getAllMemoriesF dbAllFail = []
    ∧ storeMemoriesF dbAllFail 5 [cChunk] = Except.error ()
    ∧ clearAllMemoriesF dbAllFail = Except.error () :=
  ⟨rfl, (getAllMemories_swallows_failures dbAllFail 5 [cChunk]).1 (Or.inl rfl),
    ((getAllMemories_swallows_failures dbAllFail 5 [cChunk]).2 rfl).1,
    ((getAllMemories_swallows_failures dbAllFail 5 [cChunk]).2 rfl).2⟩

end ChatbotVec
